import Mathlib

/-!
Verification development for the `emorecords` repository: a client-side page
that loads two CSV files (tours, festivals) into table widgets, renders the
rows as HTML, and wires up text- and date-range filters.

The repository contains three near-duplicate revisions of the same script:
`docs/app.js` (here suffixed `_docs`), `src/unnamed/part_000` (`_v0`), and
`src/unnamed/part_001` (`_v1`).  Each definition below is a shallow embedding
of the correspondingly named JavaScript function of one revision; strings are
modelled as Lean `String`/`List Char`, JavaScript objects as association
lists, and the external collaborators (the `fetch` response, the CSV parsing
library, the table widget) as explicit state, modelled from the spec where
their code is not part of the repository.
-/

namespace EmoRecords

/-! ## String primitives

The JavaScript string operations used by the scripts (`trim`, single-character
`split`, `join`, `includes`, first-occurrence `replace`, `toLowerCase`) are
re-implemented here by structural recursion on `List Char`, so that every
definition evaluates inside the kernel.  Lean string literals enter through
`String.data`. -/

/-- JS `String.prototype.trim`: drop whitespace from both ends. -/
def jsTrimL (cs : List Char) : List Char :=
  ((cs.dropWhile Char.isWhitespace).reverse.dropWhile Char.isWhitespace).reverse

/-- String wrapper for `jsTrimL`. -/
def jsTrim (s : String) : String := ⟨jsTrimL s.data⟩

/-- JS `split(sep)` for a single-character separator: all occurrences split,
empty pieces kept, `"".split(sep) = [""]`. -/
def splitChar (sep : Char) : List Char → List (List Char)
  | [] => [[]]
  | c :: rest =>
    let r := splitChar sep rest
    if c = sep then [] :: r
    else (c :: r.headD []) :: r.tail

/-- JS `Array.prototype.join(sep)` on pieces of characters. -/
def joinSep (sep : List Char) (parts : List (List Char)) : List Char :=
  match parts with
  | [] => []
  | [p] => p
  | p :: rest => p ++ sep ++ joinSep sep rest

/-- Whether `pat` occurs as a contiguous substring of `hay` (JS `includes`);
the empty pattern occurs in every string. -/
def containsSubL (hay pat : List Char) : Bool :=
  match hay with
  | [] => pat.isEmpty
  | _ :: t => pat.isPrefixOf hay || containsSubL t pat

/-- JS `String.prototype.replace` with a plain-string pattern: replace the
first occurrence only. -/
def replaceFirstL (cs pat rep : List Char) : List Char :=
  match cs with
  | [] => []
  | c :: rest =>
    if pat.isPrefixOf (c :: rest) then rep ++ (c :: rest).drop pat.length
    else c :: replaceFirstL rest pat rep

/-- JS `<` between strings: lexicographic comparison of the character
sequences (the scripts only compare ASCII `YYYY-MM-DD` strings, where
UTF-16 code-unit order and code-point order agree). -/
def jsStrLt : List Char → List Char → Bool
  | [], [] => false
  | [], _ :: _ => true
  | _ :: _, [] => false
  | a :: as, b :: bs =>
    if a.toNat < b.toNat then true
    else if b.toNat < a.toNat then false
    else jsStrLt as bs

/-- JS `a <= b` for strings, i.e. `!(b < a)`. -/
def jsStrLe (a b : String) : Bool := !(jsStrLt b.data a.data)

/-! ## Calendar dates

The JavaScript code represents parsed dates as `Date` objects constructed by
`new Date(year, month - 1, day)`.  `JDate` models such an object by its
calendar components.  JavaScript's overflow normalisation (e.g. month 13
rolling into the next year) is not modelled: every `JDate` constructed in
this development comes from a 1-2 digit month/day and a 4 digit year matched
by the source's own regular expressions, applied to in-range inputs. -/
structure JDate where
  year : Nat
  month : Nat
  day : Nat
deriving Repr, DecidableEq

/-- Result record of the date-range normalisers: JS `{ start, end }`, where a
`null`/absent endpoint is `none`.  (`part_001` returns the empty object `{}`
for falsy input; an absent property and `null` both model as `none`.) -/
structure StartEnd where
  start : Option JDate
  stop : Option JDate
deriving Repr, DecidableEq

/-- Numeric value of a list of decimal digit characters, as JS `Number` on a
digit-only string. -/
def digitsToNat (ds : List Char) : Nat :=
  ds.foldl (fun acc c => acc * 10 + (c.toNat - '0'.toNat)) 0

/-- Matcher for the `part_001` regex `^(\d{1,2})\/(\d{1,2})\/(\d{4})$`,
returning the three captured numbers. -/
def matchMDY (s : String) : Option (Nat × Nat × Nat) :=
  let cs := s.data
  let (ds1, r1) := cs.span (·.isDigit)
  if 1 ≤ ds1.length ∧ ds1.length ≤ 2 then
    match r1 with
    | '/' :: r2 =>
      let (ds2, r3) := r2.span (·.isDigit)
      if 1 ≤ ds2.length ∧ ds2.length ≤ 2 then
        match r3 with
        | '/' :: r4 =>
          let (ds3, r5) := r4.span (·.isDigit)
          if ds3.length = 4 ∧ r5 = [] then
            some (digitsToNat ds1, digitsToNat ds2, digitsToNat ds3)
          else none
        | _ => none
      else none
    | _ => none
  else none

/-- Matcher for the `part_001` regex `^(\d{4})-(\d{2})-(\d{2})$`, returning
year, month, day. -/
def matchISO (s : String) : Option (Nat × Nat × Nat) :=
  let cs := s.data
  let (ds1, r1) := cs.span (·.isDigit)
  if ds1.length = 4 then
    match r1 with
    | '-' :: r2 =>
      let (ds2, r3) := r2.span (·.isDigit)
      if ds2.length = 2 then
        match r3 with
        | '-' :: r4 =>
          let (ds3, r5) := r4.span (·.isDigit)
          if ds3.length = 2 ∧ r5 = [] then
            some (digitsToNat ds1, digitsToNat ds2, digitsToNat ds3)
          else none
        | _ => none
      else none
    | _ => none
  else none

/-- Embedding of `parseMDY` from `src/unnamed/part_001` (lines 55-78; the
second of the two identical-behaviour declarations, which is the one in
effect).  Accepts `M/D/YYYY` (then `new Date(year, month-1, day)`) or
`YYYY-MM-DD`; every other string yields `null`. -/
def parseMDY (str : String) : Option JDate :=
  let s := jsTrim str
  if s = "" then none
  else
    match matchMDY s with
    | some (m, d, y) => some ⟨y, m, d⟩
    | none =>
      match matchISO s with
      | some (y, m, d) => some ⟨y, m, d⟩
      | none => none

/-- The global replace `String(text).replace(/–/g, "-")` of `part_001`
(en-dash only): a character-wise map, since pattern and replacement are
single characters. -/
def replaceEnDash (s : String) : String :=
  ⟨s.data.map (fun c => if c = '–' then '-' else c)⟩

/-- Embedding of `parseStartEnd` from `src/unnamed/part_001` (lines 80-93):
normalise en-dashes to `-`, split on `-`, trim the pieces and drop empty
ones (`filter(Boolean)`); one piece parses as a single day, otherwise the
first piece is the start and the re-joined remainder the end. -/
def parseStartEnd_v1 (text : String) : StartEnd :=
  if text = "" then ⟨none, none⟩
  else
    let clean := jsTrimL (replaceEnDash text).data
    let parts := ((splitChar '-' clean).map jsTrimL).filter (· ≠ [])
    if parts.length = 1 then
      let d := parseMDY ⟨parts.getD 0 []⟩
      ⟨d, d⟩
    else
      ⟨parseMDY ⟨parts.getD 0 []⟩, parseMDY ⟨joinSep ['-'] (parts.drop 1)⟩⟩

/-! ## The `docs/app.js` date-range normaliser

`docs/app.js` builds `Date` objects with `new Date(string)`, whose parsing of
non-ISO strings is implementation-defined in ECMAScript.  Its `parseStartEnd`
is therefore embedded relative to an arbitrary engine parser
`nd : String → Option JDate`; every theorem about it below is a fact about
the *strings* the code hands to the engine, and holds for every `nd`. -/

/-- The global replace `.replace(/–|—/g, "-")` of `docs/app.js`:
en- and em-dashes become hyphens (character-wise map). -/
def replaceDashes (s : String) : String :=
  ⟨s.data.map (fun c => if c = '–' ∨ c = '—' then '-' else c)⟩

/-- JS word character (`\w`): ASCII letter, digit or underscore. -/
def isWordChar (c : Char) : Bool := c.isAlphanum || c = '_'

/-- Test of the `docs/app.js` regex `^\d{1,2}\b`: one or two leading digits
followed by a word boundary (with the regex engine's backtracking on the
greedy `\d{1,2}`). -/
def startsWithDay (cs : List Char) : Bool :=
  match cs with
  | [] => false
  | c1 :: rest =>
    if c1.isDigit then
      match rest with
      | [] => true
      | c2 :: rest2 =>
        if c2.isDigit then
          match rest2 with
          | [] => true
          | c3 :: _ => !(isWordChar c3)
        else !(isWordChar c2)
    else false

/-- First match of the `docs/app.js` regex `(\d{4})`: the leftmost run of
four consecutive digits, or `[]` when there is none (JS yields `""`). -/
def firstYear4 : List Char → List Char
  | [] => []
  | c :: rest =>
    if c.isDigit && (rest.take 3).length = 3 && (rest.take 3).all Char.isDigit then
      c :: rest.take 3
    else firstYear4 rest

/-- Test of `\d{4}` (used as `.test(...)` in `docs/app.js`). -/
def hasYear4 (cs : List Char) : Bool := firstYear4 cs ≠ []

/-- One attempted match of `\d+\s*,\s*` (the part of the day-comma pattern after the
leading hyphen): digits, optional whitespace, a comma, optional whitespace; returns
the remaining input on success. -/
def matchDayComma (cs : List Char) : Option (List Char) :=
  let (ds, r1) := cs.span (·.isDigit)
  if ds = [] then none
  else
    match r1.dropWhile Char.isWhitespace with
    | ',' :: r3 => some (r3.dropWhile Char.isWhitespace)
    | _ => none

/-- Fuelled scanner for the global day-comma replace of
`docs/app.js` (pattern: hyphen, digits, optional spaces, comma, optional
spaces; replaced globally by a space); each step consumes at least one character, so fuel equal to
the input length (as supplied by `repDayComma`) never runs out. -/
def repDayCommaAux : Nat → List Char → List Char
  | 0, cs => cs
  | _ + 1, [] => []
  | fuel + 1, c :: rest =>
    if c = '-' then
      match matchDayComma rest with
      | some rest2 => ' ' :: repDayCommaAux fuel rest2
      | none => c :: repDayCommaAux fuel rest
    else c :: repDayCommaAux fuel rest

/-- The global day-comma replace of `docs/app.js`
(collapses day-range-plus-comma patterns such as `-12, ` to a space). -/
def repDayComma (cs : List Char) : List Char := repDayCommaAux cs.length cs

/-- Embedding of `parseStartEnd` from `docs/app.js` (lines 8-68), relative to
an engine date parser `nd` (for `new Date(string)`).  Mirrors, in order: the
dash normalisation; the `&` branch (first chunk with day-comma patterns collapsed
and first comma dropped, last chunk with first comma dropped and the year
appended when missing); the replacement of the first `" - "` by `" – "`; the
range branch (split on `-`, borrow month and year for the right segment);
and the single-day fallback. -/
def parseStartEnd_docs (nd : String → Option JDate) (rangeText : String) : StartEnd :=
  if rangeText = "" then ⟨none, none⟩
  else
    let t0 := jsTrimL (replaceDashes rangeText).data
    if containsSubL t0 ['&'] then
      let parts := (splitChar '&' t0).map jsTrimL
      let start := nd ⟨replaceFirstL (repDayComma (parts.getD 0 [])) [','] []⟩
      let endStr := replaceFirstL (parts.getD (parts.length - 1) []) [','] []
      let year := firstYear4 t0
      let endArg := if containsSubL endStr year then endStr else endStr ++ [' '] ++ year
      ⟨start, nd ⟨endArg⟩⟩
    else
      let t := if containsSubL t0 " - ".data then replaceFirstL t0 " - ".data " – ".data else t0
      if containsSubL t "–".data || containsSubL t " - ".data ||
          containsSubL t " -".data || containsSubL t "- ".data then
        let split := (splitChar '-' t).map jsTrimL
        let left := split.getD 0 []
        let right := joinSep "-".data (split.drop 1)
        let monthName := (splitChar ' ' left).getD 0 []
        let year := firstYear4 t
        let startStr0 := replaceFirstL left [','] []
        let endStr0 := replaceFirstL right [','] []
        let endStr1 := if startsWithDay endStr0 then monthName ++ [' '] ++ endStr0 else endStr0
        let endStr2 := if !(hasYear4 endStr1) && year ≠ [] then endStr1 ++ [' '] ++ year else endStr1
        let startStr1 := if !(hasYear4 startStr0) && year ≠ [] then startStr0 ++ [' '] ++ year else startStr0
        ⟨nd ⟨startStr1⟩, nd ⟨endStr2⟩⟩
      else
        let d := nd ⟨replaceFirstL t [','] []⟩
        ⟨d, d⟩

/-! ## HTML escaping and cell rendering -/

/-- One pass of a JS global replace whose pattern is a single character `c`
and whose replacement is the string `r` (e.g. `.replace(/&/g, "&amp;")`). -/
def replCharL (c : Char) (r : List Char) : List Char → List Char
  | [] => []
  | x :: xs => if x = c then r ++ replCharL c r xs else x :: replCharL c r xs

/-- Embedding of `escHtml` from `part_000`/`part_001` (identical in both,
lines 14-19 / 15-20): replace `&` by `&amp;`, then `<` by `&lt;`, then `>`
by `&gt;`. -/
def escHtml (s : String) : String :=
  ⟨replCharL '>' "&gt;".data (replCharL '<' "&lt;".data (replCharL '&' "&amp;".data s.data))⟩

/-- Embedding of `escAttr` from `part_000`/`part_001` (lines 21-26 / 22-27):
replace `&` by `&amp;`, then `"` by `&quot;`, then `<` by `&lt;` (note:
`>` is not replaced). -/
def escAttr (s : String) : String :=
  ⟨replCharL '<' "&lt;".data (replCharL '\"' "&quot;".data (replCharL '&' "&amp;".data s.data))⟩

/-- Embedding of `norm` from `part_000`/`part_001`:
`String(s ?? "").trim().toLowerCase()`. -/
def normStr (s : String) : String := ⟨(jsTrimL s.data).map Char.toLower⟩

/-- A parsed CSV row: the mapping from column name to cell value produced by
the CSV parser (plus, later, the two derived ISO columns). -/
abbrev Row := List (String × String)

/-- JS property access `row?.[col] ?? ""`: the value under `col`, or the
empty string when absent. -/
def rowGet (row : Row) (col : String) : String :=
  match row.find? (fun p => p.1 = col) with
  | some p => p.2
  | none => ""

/-- Embedding of the per-cell rendering of `loadCsvIntoTable` from
`part_001` (lines 150-179): ISO helper columns and ordinary columns render
as `escHtml`-escaped text; the festival-name / tour-name cell becomes a
hyperlink whose target is the `escAttr`-escaped `Source URL` value when that
value is non-blank. -/
def renderCell_v1 (isFestivalsTable : Bool) (row : Row) (col : String) : String :=
  let colNorm := normStr col
  let rawVal := rowGet row col
  let val := escHtml rawVal
  if colNorm = "__startiso" ∨ colNorm = "__endiso" then
    "<td>" ++ escHtml rawVal ++ "</td>"
  else
    let url := rowGet row "Source URL"
    let hasUrl := jsTrim url ≠ ""
    if isFestivalsTable ∧ colNorm = "festival name" then
      if hasUrl then
        "<td class=\"festival-name\"><a href=\"" ++ escAttr url ++
          "\" target=\"_blank\" rel=\"noopener noreferrer\">" ++ val ++ "</a></td>"
      else "<td class=\"festival-name\">" ++ val ++ "</td>"
    else if ¬isFestivalsTable ∧ colNorm = "tour name" then
      if hasUrl then
        "<td class=\"tour-name\"><a href=\"" ++ escAttr url ++
          "\" target=\"_blank\" rel=\"noopener noreferrer\">" ++ val ++ "</a></td>"
      else "<td class=\"tour-name\">" ++ val ++ "</td>"
    else "<td>" ++ val ++ "</td>"

/-- Embedding of `isLikelyUrlCol` from `docs/app.js` (lines 2-5). -/
def isLikelyUrlCol (name : String) : Bool :=
  let n := name.data.map Char.toLower
  containsSubL n "url".data || containsSubL n "link".data || containsSubL n "source".data

/-- Embedding of the per-cell rendering of `loadCsvIntoTable` from
`docs/app.js` (lines 113-124): URL-like columns with a non-blank value
become a hyperlink whose target is the *unescaped* trimmed value; every
other cell interpolates the raw value with no escaping at all. -/
def renderCell_docs (row : Row) (col : String) : String :=
  let val := rowGet row col
  if isLikelyUrlCol col ∧ jsTrim val ≠ "" then
    "<td><a href=\"" ++ jsTrim val ++ "\" target=\"_blank\" rel=\"noopener\">link</a></td>"
  else
    "<td>" ++ val ++ "</td>"

/-! ## Injection-safety property

`ampOkAfter ents cs` states that every `&` in `cs` immediately opens one of
the entities in `ents`; together with the absence of the raw characters this
is the claim's "escaped entity form only" property. -/

/-- Every ampersand in the character list is immediately followed by one of
the entity tails in `ents`. -/
def ampOkAfter (ents : List (List Char)) : List Char → Bool
  | [] => true
  | x :: rest =>
    (if x = '&' then ents.any (fun e => e.isPrefixOf rest) else true) && ampOkAfter ents rest

/-- The character `c` does not occur in `cs`. -/
def noChar (c : Char) (cs : List Char) : Bool := cs.all (· ≠ c)

/-- Entity tails producible by `escHtml`. -/
def htmlEnts : List (List Char) := ["amp;".data, "lt;".data, "gt;".data]

/-- Entity tails producible by `escAttr`. -/
def attrEnts : List (List Char) := ["amp;".data, "quot;".data, "lt;".data]

/-- Text-context safety: no raw `<` or `>`, and `&` only as the start of an
`escHtml` entity. -/
def htmlTextSafe (s : String) : Bool :=
  noChar '<' s.data && noChar '>' s.data && ampOkAfter htmlEnts s.data

/-- Attribute-value safety: no raw `"` or `<`, and `&` only as the start of
an `escAttr` entity. -/
def attrValSafe (s : String) : Bool :=
  noChar '\"' s.data && noChar '<' s.data && ampOkAfter attrEnts s.data

/-- Character-wise form of `escHtml` (the three sequential global replaces
fuse into one map, proved in `escHtml_eq_flat`). -/
def escCharH (c : Char) : List Char :=
  if c = '&' then "&amp;".data
  else if c = '<' then "&lt;".data
  else if c = '>' then "&gt;".data
  else [c]

/-- Concatenated character-wise expansion for `escHtml`. -/
def escFlatH : List Char → List Char
  | [] => []
  | c :: cs => escCharH c ++ escFlatH cs

/-- Character-wise form of `escAttr`. -/
def escCharA (c : Char) : List Char :=
  if c = '&' then "&amp;".data
  else if c = '\"' then "&quot;".data
  else if c = '<' then "&lt;".data
  else [c]

/-- Concatenated character-wise expansion for `escAttr`. -/
def escFlatA : List Char → List Char
  | [] => []
  | c :: cs => escCharA c ++ escFlatA cs

/-! ## Date-range filter predicates

Both date filters read the hidden ISO columns out of the widget's row-data
array and compare `YYYY-MM-DD` strings.  A row-data array is a `List String`;
the start/end column indices are `Int` (they are `-1` when the column is
missing, as produced by `indexOf`). -/

/-- JS array indexing `rowData[i]` with `undefined` modelled as the empty
string (the code immediately passes the value through `||`, for which
`undefined` and `""` behave identically). -/
def jsIdx (xs : List String) (i : Int) : String :=
  if i < 0 then "" else xs.getD i.toNat ""

/-- JS `rowData[i] || dflt`: the indexed value unless it is falsy. -/
def jsIdxOr (xs : List String) (i : Int) (dflt : String) : String :=
  let v := jsIdx xs i
  if v = "" then dflt else v

/-- The per-table column indices closed over by `elderEmoDateFilter`
(`tours.startIdx`, `tours.endIdx`, `festivals.startIdx`, `festivals.endIdx`). -/
structure FilterIdx where
  toursStartIdx : Int
  toursEndIdx : Int
  festStartIdx : Int
  festEndIdx : Int

/-- The start-column index selected by `elderEmoDateFilter` for a table
(`tableId === "toursTable" ? tours.startIdx : festivals.startIdx`). -/
def elderStartIdx (idx : FilterIdx) (tableId : String) : Int :=
  if tableId = "toursTable" then idx.toursStartIdx else idx.festStartIdx

/-- The end-column index selected by `elderEmoDateFilter` for a table. -/
def elderEndIdx (idx : FilterIdx) (tableId : String) : Int :=
  if tableId = "toursTable" then idx.toursEndIdx else idx.festEndIdx

/-- The effective window start, `from || "0000-01-01"`. -/
def windowStartOf (dateFrom : String) : String :=
  if dateFrom = "" then "0000-01-01" else dateFrom

/-- The effective window end, `to || "9999-12-31"`. -/
def windowEndOf (dateTo : String) : String :=
  if dateTo = "" then "9999-12-31" else dateTo

/-- Embedding of `elderEmoDateFilter` from `src/unnamed/part_001`
(lines 259-282): pass rows of foreign tables; pass everything when no bound
is set; pass when the table has no ISO columns; read `startISO`
(default `""`) and `endISO` (default `startISO`); pass when `startISO` is
empty; otherwise inclusive-overlap against the window defaulted to
`0000-01-01` / `9999-12-31`. -/
def elderEmoDateFilter (idx : FilterIdx) (tableId dateFrom dateTo : String)
    (rowData : List String) : Bool :=
  if tableId ≠ "toursTable" ∧ tableId ≠ "festivalsTable" then true
  else if dateFrom = "" ∧ dateTo = "" then true
  else if elderStartIdx idx tableId = -1 ∨ elderEndIdx idx tableId = -1 then true
  else if jsIdxOr rowData (elderStartIdx idx tableId) "" = "" then true
  else
    jsStrLe (windowStartOf dateFrom)
      (jsIdxOr rowData (elderEndIdx idx tableId) (jsIdxOr rowData (elderStartIdx idx tableId) "")) &&
    jsStrLe (jsIdxOr rowData (elderStartIdx idx tableId) "") (windowEndOf dateTo)

/-- Embedding of the anonymous search function pushed by
`attachDateRangeFiltering` in `docs/app.js` (lines 195-216): pass everything
when no bound is set; read `startISO`/`endISO` the same way; *fail* when
`startISO` is empty (`return false`); otherwise the same inclusive-overlap
test written as `!(end < from || start > to)`. -/
def docsDateFilter (startIdx endIdx : Int) (dateFrom dateTo : String)
    (rowData : List String) : Bool :=
  if dateFrom = "" ∧ dateTo = "" then true
  else if jsIdxOr rowData startIdx "" = "" then false
  else
    !(jsStrLt (jsIdxOr rowData endIdx (jsIdxOr rowData startIdx "")).data
        (windowStartOf dateFrom).data ||
      jsStrLt (windowEndOf dateTo).data (jsIdxOr rowData startIdx "").data)

/-! ## The global search-function registry

`$.fn.dataTable.ext.search` is a plain array of predicates shared by all
tables.  For the duplicate-registration claim only the identity of the
date-filter entries matters, so an entry is modelled by the boolean "is the
date-filter predicate" (`docs/app.js` marks the array itself with the
`__emoArchiveDateFilterAdded` flag; `part_001` tags the function with
`__elderEmoDateFilter`). -/
structure SearchRegistry where
  fns : List Bool
  flagAdded : Bool

/-- Embedding of the registration step of `attachDateRangeFiltering` in
`docs/app.js` (lines 194-219): push the predicate and set the flag only when
the flag is not yet set. -/
def attachDateRangeFiltering_docs (reg : SearchRegistry) : SearchRegistry :=
  if reg.flagAdded then reg
  else { fns := reg.fns ++ [true], flagAdded := true }

/-- Embedding of the registration step of `init` in `src/unnamed/part_001`
(lines 255-285): remove every previously added tagged filter, then push one
tagged filter. -/
def registerDateFilter_v1 (reg : SearchRegistry) : SearchRegistry :=
  { fns := reg.fns.filter (fun tagged => !tagged) ++ [true], flagAdded := reg.flagAdded }

/-- Number of date-filter predicates in the registry. -/
def dateFilterCount (reg : SearchRegistry) : Nat := reg.fns.count true

/-! ## CSV loading, table DOM and widget state

The loaders' external collaborators are modelled from the spec: the `fetch`
response (`ok` iff the HTTP status is 2xx), the CSV parsing library
(`Papa.parse` with `header: true, skipEmptyLines: true`: first non-empty
line names the columns, every further non-empty line is one record), and the
table widget (construct attaches an instance, `destroy` removes it).  A
table's rendering state is its header rows, body rows (each cell the
produced HTML string) and the number of attached widget instances. -/

/-- An HTTP response as seen by the loaders: status and body text. -/
structure HttpResponse where
  status : Nat
  body : String

/-- Modelled from the spec: `Response.ok` of `fetch` — success iff the
HTTP-level retrieval returned a 2xx status. -/
def respOk (r : HttpResponse) : Bool := 200 ≤ r.status && r.status ≤ 299

/-- Split a body into lines. -/
def splitLines (s : String) : List String := (splitChar '\n' s.data).map (fun l => ⟨l⟩)

/-- Split a CSV line into comma-delimited fields. -/
def splitCommas (s : String) : List String := (splitChar ',' s.data).map (fun l => ⟨l⟩)

/-- Modelled from the spec: `Papa.parse(csvText, { header: true,
skipEmptyLines: true })` — parse the body as delimited text with the first
(non-empty) line as header, skipping empty lines; returns the column names
(`meta.fields`) and the records keyed by column name (`data`). -/
def papaParse (body : String) : List String × List Row :=
  match (splitLines body).filter (fun l => l ≠ "") with
  | [] => ([], [])
  | header :: rest =>
    let fields := splitCommas header
    (fields, rest.map (fun line => fields.zip (splitCommas line)))

/-- Decimal digit character. -/
def digitChar (n : Nat) : Char := Char.ofNat ('0'.toNat + n)

/-- Fuelled decimal rendering of a natural number (kernel-evaluable). -/
def natToStringAux : Nat → Nat → List Char
  | 0, _ => []
  | fuel + 1, n => if n < 10 then [digitChar n] else natToStringAux fuel (n / 10) ++ [digitChar (n % 10)]

/-- Decimal rendering of a natural number, as JS `String(n)`. -/
def natToString (n : Nat) : String := ⟨natToStringAux (n + 1) n⟩

/-- JS `String(n).padStart(2, "0")`. -/
def pad2 (n : Nat) : String :=
  let s := natToString n
  ⟨List.replicate (2 - s.data.length) '0' ++ s.data⟩

/-- JS `String(n).padStart(4, "0")` (years are already four digits here). -/
def pad4 (n : Nat) : String :=
  let s := natToString n
  ⟨List.replicate (4 - s.data.length) '0' ++ s.data⟩

/-- Modelled from the spec: the endpoint serializer `toISO` called by
`part_001` (its definition is not among the repository's source files) —
"each endpoint is serialized to a sortable calendar-date form (four-digit
year, two-digit month, two-digit day); unparseable endpoints serialize to an
empty marker".  `docs/app.js`'s own `toISODate` (lines 70-76) implements the
same form from the date's local components. -/
def toISO : Option JDate → String
  | none => ""
  | some d => pad4 d.year ++ "-" ++ pad2 d.month ++ "-" ++ pad2 d.day

/-- Rendering state of one table: header rows, body rows (lists of produced
cell strings) and the number of attached widget instances. -/
structure TableDom where
  headRows : List (List String)
  bodyRows : List (List String)
  widgets : Nat
deriving Repr, DecidableEq

/-- The empty table skeleton present in the page before any load. -/
def emptyDom : TableDom := ⟨[], [], 0⟩

/-- The date column identified by the loaders:
`cols.find(c => dateColNameCandidates.includes(c))`. -/
def dateColOf (dateColNameCandidates cols : List String) : Option String :=
  cols.find? (fun c => dateColNameCandidates.contains c)

/-- The full column list built by the loaders: the CSV columns plus the two
hidden ISO helper columns when a date column exists. -/
def allColsOf (dateColNameCandidates cols : List String) : List String :=
  cols ++ (if (dateColOf dateColNameCandidates cols).isSome then ["__startISO", "__endISO"] else [])

/-- Date-column enrichment of one row by `loadCsvIntoTable` (`part_001`
lines 121-128): derive `__startISO` / `__endISO` from the date cell. -/
def enrichRow_v1 (dateCol : String) (row : Row) : Row :=
  let se := parseStartEnd_v1 (rowGet row dateCol)
  row ++ [("__startISO", toISO se.start), ("__endISO", toISO se.stop)]

/-- Embedding of `loadCsvIntoTable` from `src/unnamed/part_001`
(lines 99-215): throw (`Except.error`) when the response is not ok, leaving
the DOM untouched; otherwise parse, derive the ISO helper columns when a
date column is present, destroy any previously attached widget instance,
empty and rebuild the header and body, and attach one new widget instance.
(`part_000` lines 35-183 has the identical fetch-check and
destroy-before-rebuild structure, without the ISO columns.) -/
def loadCsvIntoTable_v1 (csvPath tableId : String) (dateColNameCandidates : List String)
    (res : HttpResponse) (prior : TableDom) : Except String TableDom :=
  if !respOk res then
    .error ("Failed to fetch " ++ csvPath ++ ": " ++ natToString res.status)
  else
    let isFestivalsTable := tableId = "festivalsTable"
    let parsed := papaParse res.body
    let cols := parsed.1
    let dateCol := dateColOf dateColNameCandidates cols
    let allCols := allColsOf dateColNameCandidates cols
    let data2 := match dateCol with
      | some dc => parsed.2.map (enrichRow_v1 dc)
      | none => parsed.2
    let widgetsAfterDestroy := if 0 < prior.widgets then 0 else prior.widgets
    .ok { headRows := [allCols.map (fun c => escHtml c)],
          bodyRows := data2.map (fun row => allCols.map (renderCell_v1 isFestivalsTable row)),
          widgets := widgetsAfterDestroy + 1 }

/-- Embedding of `loadCsvIntoTable` from `docs/app.js` (lines 79-143):
no response-status check (the body is parsed whatever the status), header
cells interpolate the raw column name, cells are rendered unescaped by
`renderCell_docs`, and a new widget instance is attached without destroying
any prior one. -/
def loadCsvIntoTable_docs (nd : String → Option JDate) (csvPath tableId : String)
    (dateColNameCandidates : List String) (res : HttpResponse) (prior : TableDom) : TableDom :=
  let parsed := papaParse res.body
  let cols := parsed.1
  let dateCol := dateColOf dateColNameCandidates cols
  let finalCols := allColsOf dateColNameCandidates cols
  let data2 := match dateCol with
    | some dc => parsed.2.map (fun row =>
        let se := parseStartEnd_docs nd (rowGet row dc)
        row ++ [("__startISO", toISO se.start), ("__endISO", toISO se.stop)])
    | none => parsed.2
  { headRows := [finalCols],
    bodyRows := data2.map (fun row => finalCols.map (renderCell_docs row)),
    widgets := prior.widgets + 1 }

/-- Embedding of `init` from `src/unnamed/part_001` (lines 228-241): inside
one `try`, `await` the tours load, then `await` the festivals load; a thrown
error lands in the single `catch`, so a tours failure skips the festivals
load entirely, while a festivals failure leaves the already-rendered tours
table in place.  (`docs/app.js` lines 261-273 sequences the same two awaits
with no `catch`; a tours rejection likewise prevents the festivals load.) -/
def init_v1 (toursRes festRes : HttpResponse) : Option TableDom × Option TableDom :=
  match loadCsvIntoTable_v1 "./data/tours.csv" "toursTable" ["Date"] toursRes emptyDom with
  | .error _ => (none, none)
  | .ok t =>
    match loadCsvIntoTable_v1 "./data/festivals.csv" "festivalsTable" ["Dates"] festRes emptyDom with
    | .error _ => (some t, none)
    | .ok f => (some t, some f)

/-! ## Helper lemmas: fusion and safety of the escaping passes -/

theorem replCharL_append (c : Char) (r l₁ l₂ : List Char) :
    replCharL c r (l₁ ++ l₂) = replCharL c r l₁ ++ replCharL c r l₂ := by
  induction l₁ with
  | nil => rfl
  | cons x xs ih =>
    by_cases h : x = c <;> simp [replCharL, h, ih]

theorem escHtml_eq_flat (l : List Char) :
    replCharL '>' "&gt;".data (replCharL '<' "&lt;".data (replCharL '&' "&amp;".data l)) =
      escFlatH l := by
  induction l with
  | nil => rfl
  | cons x xs ih =>
    by_cases h1 : x = '&'
    · subst h1
      show replCharL '>' _ (replCharL '<' _ ("&amp;".data ++ replCharL '&' "&amp;".data xs)) = _
      rw [replCharL_append, replCharL_append]
      rw [show replCharL '<' "&lt;".data "&amp;".data = "&amp;".data from rfl]
      rw [show replCharL '>' "&gt;".data "&amp;".data = "&amp;".data from rfl]
      simpa [escFlatH, escCharH] using ih
    · by_cases h2 : x = '<'
      · subst h2
        show replCharL '>' _ (replCharL '<' _ ('<' :: replCharL '&' "&amp;".data xs)) = _
        rw [show ∀ t, replCharL '<' "&lt;".data ('<' :: t) = "&lt;".data ++ replCharL '<' "&lt;".data t
              from fun t => by simp [replCharL]]
        rw [replCharL_append]
        rw [show replCharL '>' "&gt;".data "&lt;".data = "&lt;".data from rfl]
        simpa [escFlatH, escCharH] using ih
      · by_cases h3 : x = '>'
        · subst h3
          show replCharL '>' _ (replCharL '<' _ ('>' :: replCharL '&' "&amp;".data xs)) = _
          rw [show ∀ t, replCharL '<' "&lt;".data ('>' :: t) = '>' :: replCharL '<' "&lt;".data t
                from fun t => by simp [replCharL]]
          rw [show ∀ t, replCharL '>' "&gt;".data ('>' :: t) = "&gt;".data ++ replCharL '>' "&gt;".data t
                from fun t => by simp [replCharL]]
          simpa [escFlatH, escCharH] using ih
        · show replCharL '>' _ (replCharL '<' _ (replCharL '&' _ (x :: xs))) = _
          rw [show replCharL '&' "&amp;".data (x :: xs) = x :: replCharL '&' "&amp;".data xs
                from by simp [replCharL, h1]]
          rw [show ∀ t, replCharL '<' "&lt;".data (x :: t) = x :: replCharL '<' "&lt;".data t
                from fun t => by simp [replCharL, h2]]
          rw [show ∀ t, replCharL '>' "&gt;".data (x :: t) = x :: replCharL '>' "&gt;".data t
                from fun t => by simp [replCharL, h3]]
          simp [escFlatH, escCharH, h1, h2, h3, ih]

theorem escAttr_eq_flat (l : List Char) :
    replCharL '<' "&lt;".data (replCharL '\"' "&quot;".data (replCharL '&' "&amp;".data l)) =
      escFlatA l := by
  induction l with
  | nil => rfl
  | cons x xs ih =>
    by_cases h1 : x = '&'
    · subst h1
      show replCharL '<' _ (replCharL '\"' _ ("&amp;".data ++ replCharL '&' "&amp;".data xs)) = _
      rw [replCharL_append, replCharL_append]
      rw [show replCharL '\"' "&quot;".data "&amp;".data = "&amp;".data from rfl]
      rw [show replCharL '<' "&lt;".data "&amp;".data = "&amp;".data from rfl]
      simpa [escFlatA, escCharA] using ih
    · by_cases h2 : x = '\"'
      · subst h2
        show replCharL '<' _ (replCharL '\"' _ ('\"' :: replCharL '&' "&amp;".data xs)) = _
        rw [show ∀ t, replCharL '\"' "&quot;".data ('\"' :: t) = "&quot;".data ++ replCharL '\"' "&quot;".data t
              from fun t => by simp [replCharL]]
        rw [replCharL_append]
        rw [show replCharL '<' "&lt;".data "&quot;".data = "&quot;".data from rfl]
        simpa [escFlatA, escCharA] using ih
      · by_cases h3 : x = '<'
        · subst h3
          show replCharL '<' _ (replCharL '\"' _ ('<' :: replCharL '&' "&amp;".data xs)) = _
          rw [show ∀ t, replCharL '\"' "&quot;".data ('<' :: t) = '<' :: replCharL '\"' "&quot;".data t
                from fun t => by simp [replCharL]]
          rw [show ∀ t, replCharL '<' "&lt;".data ('<' :: t) = "&lt;".data ++ replCharL '<' "&lt;".data t
                from fun t => by simp [replCharL]]
          simpa [escFlatA, escCharA] using ih
        · show replCharL '<' _ (replCharL '\"' _ (replCharL '&' _ (x :: xs))) = _
          rw [show replCharL '&' "&amp;".data (x :: xs) = x :: replCharL '&' "&amp;".data xs
                from by simp [replCharL, h1]]
          rw [show ∀ t, replCharL '\"' "&quot;".data (x :: t) = x :: replCharL '\"' "&quot;".data t
                from fun t => by simp [replCharL, h2]]
          rw [show ∀ t, replCharL '<' "&lt;".data (x :: t) = x :: replCharL '<' "&lt;".data t
                from fun t => by simp [replCharL, h3]]
          simp [escFlatA, escCharA, h1, h2, h3, ih]

theorem ampOk_cons_of_ne (ents : List (List Char)) (x : Char) (B : List Char) (h : x ≠ '&') :
    ampOkAfter ents (x :: B) = ampOkAfter ents B := by
  simp [ampOkAfter, h]

theorem ampOk_amp (B : List Char) :
    ampOkAfter htmlEnts ("&amp;".data ++ B) = ampOkAfter htmlEnts B := by
  show ampOkAfter htmlEnts ('&' :: 'a' :: 'm' :: 'p' :: ';' :: B) = _
  simp [ampOkAfter, htmlEnts, List.isPrefixOf]

theorem ampOk_lt (B : List Char) :
    ampOkAfter htmlEnts ("&lt;".data ++ B) = ampOkAfter htmlEnts B := by
  show ampOkAfter htmlEnts ('&' :: 'l' :: 't' :: ';' :: B) = _
  simp [ampOkAfter, htmlEnts, List.isPrefixOf]

theorem ampOk_gt (B : List Char) :
    ampOkAfter htmlEnts ("&gt;".data ++ B) = ampOkAfter htmlEnts B := by
  show ampOkAfter htmlEnts ('&' :: 'g' :: 't' :: ';' :: B) = _
  simp [ampOkAfter, htmlEnts, List.isPrefixOf]

theorem noChar_append (c : Char) (A B : List Char) :
    noChar c (A ++ B) = (noChar c A && noChar c B) := by
  simp [noChar]

theorem escFlatH_safe (l : List Char) :
    (noChar '<' (escFlatH l) && noChar '>' (escFlatH l) &&
      ampOkAfter htmlEnts (escFlatH l)) = true := by
  induction l with
  | nil => rfl
  | cons x xs ih =>
    have ih1 : noChar '<' (escFlatH xs) = true := by
      rcases Bool.and_eq_true_iff.mp ih with ⟨h12, _⟩
      exact (Bool.and_eq_true_iff.mp h12).1
    have ih2 : noChar '>' (escFlatH xs) = true := by
      rcases Bool.and_eq_true_iff.mp ih with ⟨h12, _⟩
      exact (Bool.and_eq_true_iff.mp h12).2
    have ih3 : ampOkAfter htmlEnts (escFlatH xs) = true :=
      (Bool.and_eq_true_iff.mp ih).2
    by_cases h1 : x = '&'
    · subst h1
      show (noChar '<' ("&amp;".data ++ escFlatH xs) && noChar '>' ("&amp;".data ++ escFlatH xs) &&
        ampOkAfter htmlEnts ("&amp;".data ++ escFlatH xs)) = true
      rw [noChar_append, noChar_append, ampOk_amp, ih1, ih2, ih3]
      decide
    · by_cases h2 : x = '<'
      · subst h2
        show (noChar '<' ("&lt;".data ++ escFlatH xs) && noChar '>' ("&lt;".data ++ escFlatH xs) &&
          ampOkAfter htmlEnts ("&lt;".data ++ escFlatH xs)) = true
        rw [noChar_append, noChar_append, ampOk_lt, ih1, ih2, ih3]
        decide
      · by_cases h3 : x = '>'
        · subst h3
          show (noChar '<' ("&gt;".data ++ escFlatH xs) && noChar '>' ("&gt;".data ++ escFlatH xs) &&
            ampOkAfter htmlEnts ("&gt;".data ++ escFlatH xs)) = true
          rw [noChar_append, noChar_append, ampOk_gt, ih1, ih2, ih3]
          decide
        · have hx : escCharH x = [x] := by
            simp [escCharH, h1, h2, h3]
          show (noChar '<' (escCharH x ++ escFlatH xs) && noChar '>' (escCharH x ++ escFlatH xs) &&
            ampOkAfter htmlEnts (escCharH x ++ escFlatH xs)) = true
          rw [hx]
          rw [show ([x] ++ escFlatH xs) = x :: escFlatH xs from rfl]
          rw [ampOk_cons_of_ne _ _ _ h1, ih3]
          simp [noChar, ih1, ih2] at ih1 ih2 ⊢
          exact ⟨⟨h2, ih1⟩, h3, ih2⟩

theorem ampOkA_amp (B : List Char) :
    ampOkAfter attrEnts ("&amp;".data ++ B) = ampOkAfter attrEnts B := by
  show ampOkAfter attrEnts ('&' :: 'a' :: 'm' :: 'p' :: ';' :: B) = _
  simp [ampOkAfter, attrEnts, List.isPrefixOf]

theorem ampOkA_quot (B : List Char) :
    ampOkAfter attrEnts ("&quot;".data ++ B) = ampOkAfter attrEnts B := by
  show ampOkAfter attrEnts ('&' :: 'q' :: 'u' :: 'o' :: 't' :: ';' :: B) = _
  simp [ampOkAfter, attrEnts, List.isPrefixOf]

theorem ampOkA_lt (B : List Char) :
    ampOkAfter attrEnts ("&lt;".data ++ B) = ampOkAfter attrEnts B := by
  show ampOkAfter attrEnts ('&' :: 'l' :: 't' :: ';' :: B) = _
  simp [ampOkAfter, attrEnts, List.isPrefixOf]

theorem escFlatA_safe (l : List Char) :
    (noChar '\"' (escFlatA l) && noChar '<' (escFlatA l) &&
      ampOkAfter attrEnts (escFlatA l)) = true := by
  induction l with
  | nil => rfl
  | cons x xs ih =>
    have ih1 : noChar '\"' (escFlatA xs) = true := by
      rcases Bool.and_eq_true_iff.mp ih with ⟨h12, _⟩
      exact (Bool.and_eq_true_iff.mp h12).1
    have ih2 : noChar '<' (escFlatA xs) = true := by
      rcases Bool.and_eq_true_iff.mp ih with ⟨h12, _⟩
      exact (Bool.and_eq_true_iff.mp h12).2
    have ih3 : ampOkAfter attrEnts (escFlatA xs) = true :=
      (Bool.and_eq_true_iff.mp ih).2
    by_cases h1 : x = '&'
    · subst h1
      show (noChar '\"' ("&amp;".data ++ escFlatA xs) && noChar '<' ("&amp;".data ++ escFlatA xs) &&
        ampOkAfter attrEnts ("&amp;".data ++ escFlatA xs)) = true
      rw [noChar_append, noChar_append, ampOkA_amp, ih1, ih2, ih3]
      decide
    · by_cases h2 : x = '\"'
      · subst h2
        show (noChar '\"' ("&quot;".data ++ escFlatA xs) && noChar '<' ("&quot;".data ++ escFlatA xs) &&
          ampOkAfter attrEnts ("&quot;".data ++ escFlatA xs)) = true
        rw [noChar_append, noChar_append, ampOkA_quot, ih1, ih2, ih3]
        decide
      · by_cases h3 : x = '<'
        · subst h3
          show (noChar '\"' ("&lt;".data ++ escFlatA xs) && noChar '<' ("&lt;".data ++ escFlatA xs) &&
            ampOkAfter attrEnts ("&lt;".data ++ escFlatA xs)) = true
          rw [noChar_append, noChar_append, ampOkA_lt, ih1, ih2, ih3]
          decide
        · have hx : escCharA x = [x] := by
            simp [escCharA, h1, h2, h3]
          show (noChar '\"' (escCharA x ++ escFlatA xs) && noChar '<' (escCharA x ++ escFlatA xs) &&
            ampOkAfter attrEnts (escCharA x ++ escFlatA xs)) = true
          rw [hx]
          rw [show ([x] ++ escFlatA xs) = x :: escFlatA xs from rfl]
          rw [ampOk_cons_of_ne _ _ _ h1, ih3]
          simp [noChar, ih1, ih2] at ih1 ih2 ⊢
          exact ⟨⟨h2, ih1⟩, h3, ih2⟩

/-! ## Helper lemmas: lookups, loaders -/

theorem jsIdxOr_empty_dflt (xs : List String) (i : Int) : jsIdxOr xs i "" = jsIdx xs i := by
  by_cases h : jsIdx xs i = "" <;> simp [jsIdxOr, h]

theorem jsIdxOr_of_idx_empty (xs : List String) (i : Int) (d : String)
    (h : jsIdx xs i = "") : jsIdxOr xs i d = d := by
  simp [jsIdxOr, h]

theorem jsIdxOr_of_idx_ne (xs : List String) (i : Int) (d : String)
    (h : jsIdx xs i ≠ "") : jsIdxOr xs i d = jsIdx xs i := by
  simp [jsIdxOr, h]

theorem papaParse_rows_length (body : String) :
    (papaParse body).2.length = ((splitLines body).filter (fun l => l ≠ "")).length - 1 := by
  unfold papaParse
  cases h : (splitLines body).filter (fun l => l ≠ "") <;> simp [h]

theorem destroy_widgets_zero (w : Nat) : (if 0 < w then 0 else w) = 0 := by
  split <;> omega

theorem load_v1_ok_of_respOk (csvPath tableId : String) (cands : List String)
    (res : HttpResponse) (prior : TableDom) (h : respOk res = true) :
    ∃ dom, loadCsvIntoTable_v1 csvPath tableId cands res prior = .ok dom := by
  unfold loadCsvIntoTable_v1
  simp only [h, Bool.not_true, ite_false]
  exact ⟨_, rfl⟩

theorem load_v1_error_of_respOk_false (csvPath tableId : String) (cands : List String)
    (res : HttpResponse) (prior : TableDom) (h : respOk res = false) :
    loadCsvIntoTable_v1 csvPath tableId cands res prior =
      .error ("Failed to fetch " ++ csvPath ++ ": " ++ natToString res.status) := by
  unfold loadCsvIntoTable_v1
  simp only [h, Bool.not_false, ite_true]

/-! ## Claim theorems -/

/-- C1 (amended): in the `part_000`/`part_001` renderers every cell text
passes through `escHtml` and every hyperlink target through `escAttr`; for
every input string, the `escHtml` output contains no raw `<` or `>` and its
ampersands only open `&amp;`/`&lt;`/`&gt;` entities, and the `escAttr`
output contains no raw `"` or `<` and its ampersands only open
`&amp;`/`&quot;`/`&lt;` entities (`escAttr` leaves `>` unescaped, which is
inert inside a quoted attribute value).  The `docs/app.js` renderer, by
contrast, interpolates cell values verbatim (see the counterexample). -/
theorem c1_escaping_safe (s : String) :
    htmlTextSafe (escHtml s) = true ∧ attrValSafe (escAttr s) = true := by
  constructor
  · have h : (escHtml s).data = escFlatH s.data := escHtml_eq_flat s.data
    unfold htmlTextSafe
    rw [h]
    exact escFlatH_safe s.data
  · have h : (escAttr s).data = escFlatA s.data := escAttr_eq_flat s.data
    unfold attrValSafe
    rw [h]
    exact escFlatA_safe s.data

/-- C1 witness: the theorem applied at a concrete string. -/
theorem c1_escaping_safe_witness :
    htmlTextSafe (escHtml "a<b>&c\"") = true ∧ attrValSafe (escAttr "a<b>&c\"") = true :=
  c1_escaping_safe "a<b>&c\""

/-- C1 counterexample: the `docs/app.js` renderer emits a cell value's `<`
and `>` as live markup (the value `<b>` appears verbatim in the output), and
inserts a `Source URL` value into the `href` attribute with its double quote
unescaped, breaking out of the attribute. -/
theorem c1_docs_unescaped_counterexample :
    renderCell_docs [("Venue", "<b>")] "Venue" = "<td><b></td>" ∧
    containsSubL (renderCell_docs [("Venue", "<b>")] "Venue").data "<b>".data = true ∧
    renderCell_docs [("Source URL", "x\" onerror=\"alert(1)")] "Source URL" =
      "<td><a href=\"x\" onerror=\"alert(1)\" target=\"_blank\" rel=\"noopener\">link</a></td>" := by
  refine ⟨by decide, by decide, by decide⟩

/-- C2 (amended): the `part_001` date filter `elderEmoDateFilter` is
fail-open — a row whose start slot reads empty passes, whatever the bounds
and whatever the end slot holds, and a table whose ISO columns are missing
(index `-1`) passes entirely.  The `docs/app.js` predicate is fail-closed
at the same point (see the counterexample). -/
theorem c2_elder_fail_open (idx : FilterIdx) (tableId dateFrom dateTo : String)
    (rowData : List String) :
    (jsIdxOr rowData (elderStartIdx idx tableId) "" = "" →
      elderEmoDateFilter idx tableId dateFrom dateTo rowData = true) ∧
    (elderStartIdx idx tableId = -1 ∨ elderEndIdx idx tableId = -1 →
      elderEmoDateFilter idx tableId dateFrom dateTo rowData = true) := by
  constructor
  · intro h
    simp [elderEmoDateFilter, h]
  · intro h
    rcases h with h | h <;> simp [elderEmoDateFilter, h]

/-- C2 witness: a row with an empty start slot and a parsed end date passes
the `part_001` filter although the `from` bound is set. -/
theorem c2_elder_fail_open_witness :
    elderEmoDateFilter ⟨0, 1, 0, 1⟩ "toursTable" "2026-01-01" "" ["", "2026-06-25"] = true :=
  (c2_elder_fail_open ⟨0, 1, 0, 1⟩ "toursTable" "2026-01-01" "" ["", "2026-06-25"]).1 (by decide)

/-- C2 counterexample: the `docs/app.js` date predicate *excludes* a row
whose start is absent as soon as a bound is set — even though its end
(`2026-06-25`) parsed successfully — contradicting the claimed fail-open
behaviour for that revision. -/
theorem c2_docs_fail_closed_counterexample :
    docsDateFilter 0 1 "2026-01-01" "" ["", "2026-06-25"] = false := by decide

/-- C3 (amended): the `part_001` normaliser is a total function (the
embedding below is total by construction, mirroring straight-line JS that
cannot throw) and satisfies: `M/D/YYYY` single dates and en-dash ranges
parse (`6/18/2026` and `6/18/2026 – 6/21/2026`); the empty string and
`not a date` give absent endpoints — but month-name forms such as
`Jun 18, 2026` also give absent endpoints (see the counterexample).  In the
`docs/app.js` revision the single-date example hands `Jun 18 2026` to the
engine's date parser (which standard engines read as 2026-06-18), while the
range example collapses to a *single* un-split segment: the engine is handed
the whole string `Jun 18 2026 – Jun 21, 2026` as the start and the
year-only string `" 2026"` as the end, so no engine can return the claimed
`end = 2026-06-21` either. -/
theorem c3_normalizer_examples :
    parseStartEnd_v1 "6/18/2026" = ⟨some ⟨2026, 6, 18⟩, some ⟨2026, 6, 18⟩⟩ ∧
    parseStartEnd_v1 "6/18/2026 – 6/21/2026" = ⟨some ⟨2026, 6, 18⟩, some ⟨2026, 6, 21⟩⟩ ∧
    parseStartEnd_v1 "" = ⟨none, none⟩ ∧
    parseStartEnd_v1 "not a date" = ⟨none, none⟩ ∧
    ∀ nd : String → Option JDate,
      parseStartEnd_docs nd "Jun 18, 2026" = ⟨nd "Jun 18 2026", nd "Jun 18 2026"⟩ ∧
      parseStartEnd_docs nd "Jun 18, 2026 – Jun 21, 2026" =
        ⟨nd "Jun 18 2026 – Jun 21, 2026", nd " 2026"⟩ :=
  ⟨by decide, by decide, by decide, by decide, fun nd => ⟨rfl, rfl⟩⟩

/-- C3 counterexample: the claim's own first example fails on the `part_001`
normaliser — `Jun 18, 2026` yields absent start and end (its `parseMDY`
accepts only `M/D/YYYY` and `YYYY-MM-DD`), not 2026-06-18. -/
theorem c3_monthname_counterexample :
    parseStartEnd_v1 "Jun 18, 2026" = ⟨none, none⟩ ∧
    parseStartEnd_v1 "Jun 18, 2026" ≠ ⟨some ⟨2026, 6, 18⟩, some ⟨2026, 6, 18⟩⟩ := by
  refine ⟨by decide, by decide⟩

/-- C8 (amended): neither normaliser returns "first sub-range's start, last
sub-range's end" for compound `range1 & range2` text.  The `docs/app.js`
`&` branch hands the engine the first `&`-chunk (with day-comma patterns
collapsed and the first comma dropped) as the start and the *entire* last
chunk — day range still embedded, e.g. `Apr 17-19 2026` — as the end, never
extracting the last sub-range's end day; the `part_001` normaliser has no
`&` handling at all and yields absent endpoints on such text. -/
theorem c8_compound_behavior :
    (∀ nd : String → Option JDate,
      parseStartEnd_docs nd "Apr 10-12 & Apr 17-19, 2026" =
        ⟨nd "Apr 10-12", nd "Apr 17-19 2026"⟩ ∧
      parseStartEnd_docs nd "Apr 10-12, 2026 & Apr 17-19, 2026" =
        ⟨nd "Apr 10 2026", nd "Apr 17-19 2026"⟩) ∧
    parseStartEnd_v1 "Apr 10-12 & Apr 17-19, 2026" = ⟨none, none⟩ :=
  ⟨fun nd => ⟨rfl, rfl⟩, by decide⟩

/-- C8 counterexample: on `4/10/2026 & 4/17/2026` the `part_001` normaliser
returns absent start (and end), not the first sub-range's start — although
that first sub-range alone does parse. -/
theorem c8_compound_counterexample :
    parseStartEnd_v1 "4/10/2026 & 4/17/2026" = ⟨none, none⟩ ∧
    (parseStartEnd_v1 "4/10/2026 & 4/17/2026").start ≠ some ⟨2026, 4, 10⟩ ∧
    parseStartEnd_v1 "4/10/2026" = ⟨some ⟨2026, 4, 10⟩, some ⟨2026, 4, 10⟩⟩ := by
  refine ⟨by decide, by decide, by decide⟩

/-- C4: with a derived start date present (and, for `part_001`, a row of one
of the two tables with its ISO columns present), the date filters pass a row
iff its inclusive `[start, end]` range overlaps the inclusive window
`[from or 0000-01-01, to or 9999-12-31]` — that is, `end >= window.from`
and `start <= window.to` on the sortable encoding — and when neither bound
is set every row passes.  Proved for both `elderEmoDateFilter` (`part_001`)
and the `docs/app.js` predicate. -/
theorem c4_overlap_iff (idx : FilterIdx) (tableId dateFrom dateTo : String)
    (rowData : List String)
    (htab : tableId = "toursTable" ∨ tableId = "festivalsTable")
    (hsi : elderStartIdx idx tableId ≠ -1)
    (hei : elderEndIdx idx tableId ≠ -1)
    (hstart : jsIdxOr rowData (elderStartIdx idx tableId) "" ≠ "") :
    (¬(dateFrom = "" ∧ dateTo = "") →
      (elderEmoDateFilter idx tableId dateFrom dateTo rowData = true ↔
        (jsStrLe (windowStartOf dateFrom)
            (jsIdxOr rowData (elderEndIdx idx tableId)
              (jsIdxOr rowData (elderStartIdx idx tableId) "")) = true ∧
         jsStrLe (jsIdxOr rowData (elderStartIdx idx tableId) "")
            (windowEndOf dateTo) = true))) ∧
    (dateFrom = "" ∧ dateTo = "" →
      elderEmoDateFilter idx tableId dateFrom dateTo rowData = true) ∧
    (∀ startIdx endIdx : Int, jsIdxOr rowData startIdx "" ≠ "" →
      (¬(dateFrom = "" ∧ dateTo = "") →
        (docsDateFilter startIdx endIdx dateFrom dateTo rowData = true ↔
          (jsStrLe (windowStartOf dateFrom)
              (jsIdxOr rowData endIdx (jsIdxOr rowData startIdx "")) = true ∧
           jsStrLe (jsIdxOr rowData startIdx "") (windowEndOf dateTo) = true))) ∧
      (dateFrom = "" ∧ dateTo = "" →
        docsDateFilter startIdx endIdx dateFrom dateTo rowData = true)) := by
  refine ⟨?_, ?_, ?_⟩
  · intro hno
    unfold elderEmoDateFilter
    rw [if_neg (by rcases htab with h | h <;> simp [h]), if_neg hno,
      if_neg (not_or.mpr ⟨hsi, hei⟩), if_neg hstart]
    exact (Bool.and_eq_true _ _).to_iff
  · intro hb
    unfold elderEmoDateFilter
    rw [if_neg (by rcases htab with h | h <;> simp [h]), if_pos hb]
  · intro startIdx endIdx hstart2
    constructor
    · intro hno
      unfold docsDateFilter
      rw [if_neg hno, if_neg hstart2]
      unfold jsStrLe
      rw [Bool.not_or]
      exact (Bool.and_eq_true _ _).to_iff
    · intro hb
      unfold docsDateFilter
      rw [if_pos hb]

/-- C4 witness: the spec's own overlap example — window `[2026-06-01,
2026-06-30]`, row `[2026-06-20, 2026-06-25]` — passes both predicates. -/
theorem c4_overlap_iff_witness :
    elderEmoDateFilter ⟨0, 1, 0, 1⟩ "toursTable" "2026-06-01" "2026-06-30"
      ["2026-06-20", "2026-06-25"] = true ∧
    docsDateFilter 0 1 "2026-06-01" "2026-06-30" ["2026-06-20", "2026-06-25"] = true := by
  have h := c4_overlap_iff ⟨0, 1, 0, 1⟩ "toursTable" "2026-06-01" "2026-06-30"
    ["2026-06-20", "2026-06-25"] (Or.inl rfl) (by decide) (by decide) (by decide)
  exact ⟨(h.1 (by simp)).mpr (by decide), ((h.2.2 0 1 (by decide)).1 (by simp)).mpr (by decide)⟩

/-- C9: in both date-filter predicates, a row whose end slot reads empty but
whose start slot is non-empty is evaluated exactly like the same row with
its end slot set to the start value (a single-day event); in particular an
empty end alone never changes the outcome for a row with a valid start. -/
theorem c9_empty_end_single_day (dateFrom dateTo : String) (rd rd' : List String) :
    (∀ (idx : FilterIdx) (tableId : String),
      jsIdx rd' (elderStartIdx idx tableId) = jsIdx rd (elderStartIdx idx tableId) →
      jsIdx rd (elderStartIdx idx tableId) ≠ "" →
      jsIdx rd (elderEndIdx idx tableId) = "" →
      jsIdx rd' (elderEndIdx idx tableId) = jsIdx rd (elderStartIdx idx tableId) →
      elderEmoDateFilter idx tableId dateFrom dateTo rd =
        elderEmoDateFilter idx tableId dateFrom dateTo rd') ∧
    (∀ startIdx endIdx : Int,
      jsIdx rd' startIdx = jsIdx rd startIdx →
      jsIdx rd startIdx ≠ "" →
      jsIdx rd endIdx = "" →
      jsIdx rd' endIdx = jsIdx rd startIdx →
      docsDateFilter startIdx endIdx dateFrom dateTo rd =
        docsDateFilter startIdx endIdx dateFrom dateTo rd') := by
  constructor
  · intro idx tableId h1 h2 h3 h4
    unfold elderEmoDateFilter
    rw [jsIdxOr_empty_dflt rd, jsIdxOr_empty_dflt rd', h1,
      jsIdxOr_of_idx_empty rd _ _ h3,
      jsIdxOr_of_idx_ne rd' _ _ (by rw [h4]; exact h2), h4]
  · intro startIdx endIdx h1 h2 h3 h4
    unfold docsDateFilter
    rw [jsIdxOr_empty_dflt rd, jsIdxOr_empty_dflt rd', h1,
      jsIdxOr_of_idx_empty rd _ _ h3,
      jsIdxOr_of_idx_ne rd' _ _ (by rw [h4]; exact h2), h4]

/-- C9 witness: a row `[2026-06-20, ""]` filters identically to the
single-day row `[2026-06-20, 2026-06-20]` under both predicates. -/
theorem c9_empty_end_single_day_witness :
    (elderEmoDateFilter ⟨0, 1, 0, 1⟩ "toursTable" "2026-06-01" "2026-06-30"
        ["2026-06-20", ""] =
      elderEmoDateFilter ⟨0, 1, 0, 1⟩ "toursTable" "2026-06-01" "2026-06-30"
        ["2026-06-20", "2026-06-20"]) ∧
    (docsDateFilter 0 1 "2026-06-01" "2026-06-30" ["2026-06-20", ""] =
      docsDateFilter 0 1 "2026-06-01" "2026-06-30" ["2026-06-20", "2026-06-20"]) := by
  have h := c9_empty_end_single_day "2026-06-01" "2026-06-30"
    ["2026-06-20", ""] ["2026-06-20", "2026-06-20"]
  exact ⟨h.1 ⟨0, 1, 0, 1⟩ "toursTable" (by decide) (by decide) (by decide) (by decide),
    h.2 0 1 (by decide) (by decide) (by decide) (by decide)⟩

/-- C10: starting from the page-load registry (no date predicate, flag
unset), any number of runs of the `docs/app.js` attach step leaves at most
one — after the first run, exactly one — date-filter predicate registered;
and the `part_001` registration step leaves exactly one tagged date filter
from any prior registry state (it removes all old tagged filters before
pushing one). -/
theorem c10_single_date_filter :
    (∀ n : Nat,
      dateFilterCount (attachDateRangeFiltering_docs^[n] ⟨[], false⟩) = min n 1) ∧
    (∀ reg : SearchRegistry, dateFilterCount (registerDateFilter_v1 reg) = 1) := by
  constructor
  · have key : ∀ n : Nat,
        attachDateRangeFiltering_docs^[n + 1] ⟨[], false⟩ = ⟨[true], true⟩ := by
      intro n
      induction n with
      | zero => rfl
      | succ m ih =>
        rw [Function.iterate_succ_apply', ih]
        rfl
    intro n
    cases n with
    | zero => rfl
    | succ m =>
      rw [key m]
      simp [dateFilterCount]
  · intro reg
    unfold registerDateFilter_v1 dateFilterCount
    rw [List.count_append]
    have h0 : (reg.fns.filter (fun tagged => !tagged)).count true = 0 := by
      rw [List.count_eq_zero]
      intro hmem
      have := List.of_mem_filter hmem
      simp at this
    rw [h0]
    rfl

/-- C5 (amended): the `part_000`/`part_001` loader fails with the
fetch error and renders nothing when the HTTP status is not 2xx, and on a 2xx
status renders a table whose single header row comes from the first
non-empty line and whose body has one row per remaining non-empty line.
The `docs/app.js` loader performs no status check at all (see the
counterexample). -/
theorem c5_loader_fetch_check (csvPath tableId : String) (cands : List String)
    (res : HttpResponse) (prior : TableDom) :
    (respOk res = false →
      loadCsvIntoTable_v1 csvPath tableId cands res prior =
        .error ("Failed to fetch " ++ csvPath ++ ": " ++ natToString res.status)) ∧
    (respOk res = true →
      (loadCsvIntoTable_v1 csvPath tableId cands res prior).toOption.map
          TableDom.headRows =
        some [(allColsOf cands (papaParse res.body).1).map escHtml] ∧
      (loadCsvIntoTable_v1 csvPath tableId cands res prior).toOption.map
          (fun d => d.bodyRows.length) =
        some (((splitLines res.body).filter (fun l => l ≠ "")).length - 1)) := by
  constructor
  · intro h
    exact load_v1_error_of_respOk_false csvPath tableId cands res prior h
  · intro h
    unfold loadCsvIntoTable_v1
    simp only [h, Bool.not_true, ite_false, Except.toOption, Option.map]
    refine ⟨rfl, ?_⟩
    rw [← papaParse_rows_length res.body]
    cases hdc : dateColOf cands (papaParse res.body).1 <;> simp [hdc]

/-- C5 witness: a 404 response produces the fetch error, and a 200 response
with body `"A,B\n1,2\n\n3,4"` produces the escaped two-column header and two
body rows (the empty line is skipped). -/
theorem c5_loader_fetch_check_witness :
    (loadCsvIntoTable_v1 "data/tours.csv" "toursTable" ["Date"] ⟨404, "x"⟩ emptyDom =
      .error ("Failed to fetch " ++ "data/tours.csv" ++ ": " ++ natToString 404)) ∧
    ((loadCsvIntoTable_v1 "data/tours.csv" "toursTable" ["Date"] ⟨200, "A,B\n1,2\n\n3,4"⟩
        emptyDom).toOption.map TableDom.headRows =
      some [(allColsOf ["Date"] (papaParse "A,B\n1,2\n\n3,4").1).map escHtml]) ∧
    ((loadCsvIntoTable_v1 "data/tours.csv" "toursTable" ["Date"] ⟨200, "A,B\n1,2\n\n3,4"⟩
        emptyDom).toOption.map (fun d => d.bodyRows.length) =
      some (((splitLines "A,B\n1,2\n\n3,4").filter (fun l => l ≠ "")).length - 1)) := by
  refine ⟨(c5_loader_fetch_check "data/tours.csv" "toursTable" ["Date"] ⟨404, "x"⟩
      emptyDom).1 (by decide),
    ((c5_loader_fetch_check "data/tours.csv" "toursTable" ["Date"] ⟨200, "A,B\n1,2\n\n3,4"⟩
      emptyDom).2 (by decide)).1,
    ((c5_loader_fetch_check "data/tours.csv" "toursTable" ["Date"] ⟨200, "A,B\n1,2\n\n3,4"⟩
      emptyDom).2 (by decide)).2⟩

/-- C5 counterexample: given a 404 response, the `docs/app.js` loader (which
never checks the status) still parses the error body and renders a table —
one widget attached and a body row built from the 404 page text — instead of
failing. -/
theorem c5_docs_no_check_counterexample :
    (loadCsvIntoTable_docs (fun _ => none) "data/tours.csv" "toursTable" ["Date"]
        ⟨404, "A,B\nerror page"⟩ emptyDom).widgets = 1 ∧
    (loadCsvIntoTable_docs (fun _ => none) "data/tours.csv" "toursTable" ["Date"]
        ⟨404, "A,B\nerror page"⟩ emptyDom).bodyRows =
      [["<td>error page</td>", "<td></td>"]] := by
  refine ⟨by decide, by decide⟩

/-- C6 (amended): isolation between the two table loads holds in one
direction only — a festivals failure cannot un-render the already-loaded
tours table (tours loads first), but the loads are sequenced inside one
`try`/async body, so a tours failure prevents the festivals table from
loading (see the counterexample). -/
theorem c6_one_way_isolation (toursBody : String) (festRes : HttpResponse) :
    (init_v1 ⟨200, toursBody⟩ festRes).1.isSome = true ∧
    (respOk festRes = false → (init_v1 ⟨200, toursBody⟩ festRes).2 = none) := by
  obtain ⟨t, ht⟩ := load_v1_ok_of_respOk "./data/tours.csv" "toursTable" ["Date"]
    ⟨200, toursBody⟩ emptyDom rfl
  constructor
  · unfold init_v1
    rw [ht]
    cases hf : loadCsvIntoTable_v1 "./data/festivals.csv" "festivalsTable" ["Dates"]
      festRes emptyDom <;> rfl
  · intro hfail
    unfold init_v1
    rw [ht, load_v1_error_of_respOk_false "./data/festivals.csv" "festivalsTable" ["Dates"]
      festRes emptyDom hfail]

/-- C6 witness: with tours loading fine and the festivals fetch failing, the
tours table is rendered and the festivals table is not. -/
theorem c6_one_way_isolation_witness :
    (init_v1 ⟨200, "Tour name,Date\nT1,6/18/2026"⟩ ⟨500, ""⟩).1.isSome = true ∧
    (init_v1 ⟨200, "Tour name,Date\nT1,6/18/2026"⟩ ⟨500, ""⟩).2 = none :=
  ⟨(c6_one_way_isolation "Tour name,Date\nT1,6/18/2026" ⟨500, ""⟩).1,
    (c6_one_way_isolation "Tour name,Date\nT1,6/18/2026" ⟨500, ""⟩).2 (by decide)⟩

/-- C6 counterexample: a failed tours fetch (404) prevents the independent
festivals table from loading at all — `init` renders neither table — so the
claimed two-way isolation fails on the code. -/
theorem c6_sequential_counterexample :
    init_v1 ⟨404, ""⟩ ⟨200, "Festival Name,Dates\nF1,6/18/2026"⟩ = (none, none) := by
  decide

/-- C7 (amended): the `part_000`/`part_001` loader's result is independent
of the prior rendering state — it destroys any attached widget instance and
empties header and body before rebuilding — so a second call fully replaces
the first: on success exactly one widget instance is attached and exactly
one header row exists.  The `docs/app.js` loader never destroys the prior
widget instance (see the counterexample). -/
theorem c7_loader_teardown (csvPath tableId : String) (cands : List String)
    (res : HttpResponse) (prior prior' : TableDom) :
    loadCsvIntoTable_v1 csvPath tableId cands res prior =
      loadCsvIntoTable_v1 csvPath tableId cands res prior' ∧
    (respOk res = true →
      (loadCsvIntoTable_v1 csvPath tableId cands res prior).toOption.map
        TableDom.widgets = some 1 ∧
      (loadCsvIntoTable_v1 csvPath tableId cands res prior).toOption.map
        (fun d => d.headRows.length) = some 1) := by
  constructor
  · unfold loadCsvIntoTable_v1
    rw [destroy_widgets_zero prior.widgets, destroy_widgets_zero prior'.widgets]
  · intro h
    unfold loadCsvIntoTable_v1
    simp only [h, Bool.not_true, ite_false, Except.toOption, Option.map,
      destroy_widgets_zero prior.widgets]
    exact ⟨rfl, rfl⟩

/-- C7 witness: reloading with a completely different (already-rendered)
prior state gives the same result as loading into the empty skeleton, with
one widget and one header row. -/
theorem c7_loader_teardown_witness :
    (loadCsvIntoTable_v1 "data/tours.csv" "toursTable" ["Date"] ⟨200, "A,B\n1,2"⟩
        ⟨[["stale"]], [["stale row"]], 7⟩ =
      loadCsvIntoTable_v1 "data/tours.csv" "toursTable" ["Date"] ⟨200, "A,B\n1,2"⟩ emptyDom) ∧
    ((loadCsvIntoTable_v1 "data/tours.csv" "toursTable" ["Date"] ⟨200, "A,B\n1,2"⟩
        ⟨[["stale"]], [["stale row"]], 7⟩).toOption.map TableDom.widgets = some 1) := by
  have h := c7_loader_teardown "data/tours.csv" "toursTable" ["Date"] ⟨200, "A,B\n1,2"⟩
    ⟨[["stale"]], [["stale row"]], 7⟩ emptyDom
  exact ⟨h.1, (h.2 (by decide)).1⟩

/-- C7 counterexample: calling the `docs/app.js` loader twice for the same
table leaves *two* attached widget instances — it empties the header and
body but never destroys the previously attached widget. -/
theorem c7_docs_duplicate_widget_counterexample :
    (loadCsvIntoTable_docs (fun _ => none) "data/tours.csv" "toursTable" ["Date"]
        ⟨200, "A,B\n1,2"⟩
        (loadCsvIntoTable_docs (fun _ => none) "data/tours.csv" "toursTable" ["Date"]
          ⟨200, "A,B\n1,2"⟩ emptyDom)).widgets = 2 := by
  decide

end EmoRecords
